import Mathlib

/-!
Verification development for the gbifdown repository (src/gbif.py,
src/gbif_v2.py, src/json_trans.py).

The downloader in src/gbif.py is embedded as an explicit state machine:
the inner retry loop (lines 62-107) becomes innerLoop, the outer
pagination loop (lines 60-114) becomes outerLoopB, and the surrounding
try/except plus the skip-if-file-exists check (lines 26-33, 38, 117-129)
become download_species.  Machine effects are made explicit:

* the remote HTTP endpoint is a parameter mapping (attempt number,
  request parameters) to an outcome (transport failure, other
  exception, or a parsed JSON page);
* the filesystem is reduced to the one boolean the function reads
  (does the per-species artifact already exist) and the one write it
  may perform (the JSON array dumped at lines 118-119), reported in the
  result;
* Python local variables that may be unbound (data, results) are
  Options, and reading them while unbound is the NameError path that
  the catch-all except at line 127 turns into a 0 return;
* loops are driven by explicit fuel; running out of fuel models a
  non-terminating execution prefix.
-/

namespace Gbifdown

/-- Module-level constants of src/gbif.py (lines 13-17) together with the
page size hard-coded in the params dict (line 45).  MAX_RECORDS_PER_SPECIES
is the float literal 1e7 = 10000000.0; every comparison made with it in the
source compares a Python int to that float, which coincides with comparing
to the natural number 10000000. -/
structure Config where
  limit : Nat
  retryCount : Nat
  maxRecords : Nat
  deriving Repr, DecidableEq

def defaultConfig : Config := { limit := 300, retryCount := 3, maxRecords := 10000000 }

/-- The query-parameter dict built at lines 43-52 of src/gbif.py.  Optional
fields model keys that a request may or may not carry: src/gbif.py sets all
of them, src/gbif_v2.py issues requests carrying only scientificName, limit
and offset (gbif_v2.py lines 39-43). -/
structure Params where
  scientificName : String
  limit : Nat
  offset : Nat
  status : Option String
  occurrenceStatus : Option String
  hasCoordinate : Option String
  hasGeospatialIssue : Option String
  advanced : Option String
  deriving Repr, DecidableEq

/-- Request parameters as assembled by src/gbif.py lines 43-52 (all filter
keys present; only offset varies, mutated at line 101). -/
def mkParams (cfg : Config) (species : String) (offset : Nat) : Params :=
  { scientificName := species
    limit := cfg.limit
    offset := offset
    status := some "ACCEPTED"
    occurrenceStatus := some "PRESENT"
    hasCoordinate := some "true"
    hasGeospatialIssue := some "false"
    advanced := some "true" }

/-- Request parameters as assembled by src/gbif_v2.py lines 39-43: the
pygbif occurrences.search call passes only scientificName, limit and
offset, no filter keys at all. -/
def mkParamsV2 (species : String) (limit offset : Nat) : Params :=
  { scientificName := species
    limit := limit
    offset := offset
    status := none
    occurrenceStatus := none
    hasCoordinate := none
    hasGeospatialIssue := none
    advanced := none }

/-- The parsed JSON body of one page response.  count? models
data.get('count', 0) (the key may be absent, line 76); results? models the
'results' key, whose absence is tested at line 80. α is the type of one
occurrence record (an opaque payload to the downloader). -/
structure PageData (α : Type) where
  count? : Option Nat
  results? : Option (List α)
  deriving Repr, DecidableEq

/-- Outcome of one HTTP attempt (lines 68-71 of src/gbif.py).
fail = requests.exceptions.RequestException (connection error or the
raise_for_status at line 69), caught by the inner except at line 104.
err = any other exception while fetching or parsing (e.g. response.json()
raising ValueError), which escapes the inner except and is caught only by
the outer except at line 127.  ok d = a successfully parsed body. -/
inductive ReqResult (α : Type) where
  | fail
  | err
  | ok (d : PageData α)
  deriving Repr, DecidableEq

/-- A remote endpoint: attempt number (0-based count of requests already
issued in this call) and request parameters determine the outcome. -/
def Remote (α : Type) : Type := Nat → Params → ReqResult α

/-- The mutable state of download_species' pagination loops.
issued records every HTTP request issued, in order (the trace of
requests.get calls at line 68).  pageCount, offset, totalRecords,
allResults, recordCount are the Python locals page_count, params['offset'],
total_records, all_results, record_count.  lastData and lastResults are the
Python locals data and results, which start unbound (none) and keep their
last assigned value across loop iterations; line 113 reads them even after
a retry-exhausted iteration.  recordCount is an Int because Python ints are
unbounded signed integers. -/
structure St (α : Type) where
  issued : List Params
  pageCount : Nat
  offset : Nat
  totalRecords : Option Nat
  allResults : List α
  recordCount : Int
  lastData : Option (PageData α)
  lastResults : Option (List α)
  deriving Repr, DecidableEq

def initSt (α : Type) : St α :=
  { issued := []
    pageCount := 0
    offset := 0
    totalRecords := none
    allResults := []
    recordCount := 0
    lastData := none
    lastResults := none }

/-- How the inner retry loop (lines 62-107) ends: broke = one of the break
statements at lines 83, 99 or 102 ran; exhausted = retry_count reached
RETRY_COUNT; raised = a non-RequestException exception escaped (the err
outcome of an attempt). -/
inductive InnerOut (α : Type) where
  | broke (s : St α)
  | exhausted (s : St α)
  | raised (s : St α)
  deriving Repr, DecidableEq

/-- The inner retry loop, lines 62-107 of src/gbif.py.  The Nat argument is
the remaining retry budget RETRY_COUNT - retry_count; each RequestException
consumes one unit (line 105).  A successful attempt always breaks out of
the retry loop (lines 83, 99, 102), so no budget is consumed on success. -/
def innerLoop (cfg : Config) (species : String) (remote : Remote α) :
    Nat → St α → InnerOut α
  | 0, s => .exhausted s
  | n + 1, s =>
    let p := mkParams cfg species s.offset
    match remote s.issued.length p with
    | .fail => innerLoop cfg species remote n { s with issued := s.issued ++ [p] }
    | .err => .raised { s with issued := s.issued ++ [p] }
    | .ok d =>
      let s1 : St α :=
        { s with
          issued := s.issued ++ [p]
          pageCount := s.pageCount + 1
          lastData := some d }
      let t : Nat := s1.totalRecords.getD (d.count?.getD 0)
      let s2 : St α := { s1 with totalRecords := some t }
      match d.results? with
      | none => .broke s2
      | some rs =>
        if rs.isEmpty then .broke s2
        else
          let s3 : St α :=
            { s2 with
              lastResults := some rs
              allResults := s2.allResults ++ rs
              recordCount := s2.recordCount + (rs.length : Int) }
          if rs.length < cfg.limit ∨ s3.recordCount ≥ (cfg.maxRecords : Int)
              ∨ s3.recordCount ≥ (t : Int) then
            .broke s3
          else
            .broke { s3 with offset := s3.offset + cfg.limit }

/-- The loop-exit test at line 113 of src/gbif.py, evaluated with Python
short-circuit semantics on the possibly-stale locals data, results,
total_records.  none models an exception while evaluating the condition:
NameError if data or results is unbound, TypeError if total_records is
still None when the int comparison runs; either lands in the outer except
at line 127. -/
def outerExit (cfg : Config) (s : St α) : Option Bool :=
  match s.lastData with
  | none => none
  | some d =>
    match d.results? with
    | none => some true
    | some rs0 =>
      if rs0.isEmpty then some true
      else
      match s.lastResults with
      | none => none
      | some rs =>
        if rs.length < cfg.limit then some true
        else if s.recordCount ≥ (cfg.maxRecords : Int) then some true
        else
          match s.totalRecords with
          | none => none
          | some t => some (s.recordCount ≥ (t : Int))

/-- Result of the try-block body, lines 38-125 of src/gbif.py:
value r w warned s = the body returned r, wrote the artifact content w
(none = no file written), and warned records whether the zero-record
warning at line 124 was printed; raised s = an exception escaped the body
(to be caught at line 127); timeout s = the fuel ran out, i.e. the
pagination loop was still running after that many outer iterations. -/
inductive BodyRes (α : Type) where
  | timeout (s : St α)
  | raised (s : St α)
  | value (ret : Int) (written : Option (List α)) (warned : Bool) (s : St α)
  deriving Repr, DecidableEq

/-- Lines 117-125 of src/gbif.py: with a non-empty all_results the list is
dumped to the species file and record_count returned; otherwise a warning
is printed, no file is created, and 0 is returned. -/
def finishSave (s : St α) : BodyRes α :=
  if s.allResults.isEmpty then .value 0 none true s
  else .value s.recordCount (some s.allResults) false s

/-- The outer pagination loop, lines 60-114 of src/gbif.py, followed by the
save step at lines 117-125.  One unit of fuel is one outer iteration. -/
def outerLoopB (cfg : Config) (species : String) (remote : Remote α) :
    Nat → St α → BodyRes α
  | 0, s => .timeout s
  | f + 1, s =>
    match innerLoop cfg species remote cfg.retryCount s with
    | .raised s1 => .raised s1
    | .broke s1 | .exhausted s1 =>
      match outerExit cfg s1 with
      | none => .raised s1
      | some true => finishSave s1
      | some false => outerLoopB cfg species remote f s1

/-- The observable outcome of download_species: done r w warned s = the
call returned r, having written artifact content w; timeout = the call was
still inside the pagination loop when the fuel ran out.  There is no
constructor for a propagated exception: the translation of the outer
try/except below shows every raised body turning into a 0 return. -/
inductive DownRes (α : Type) where
  | timeout (s : St α)
  | done (ret : Int) (written : Option (List α)) (warned : Bool) (s : St α)
  deriving Repr, DecidableEq

/-- download_species of src/gbif.py (lines 23-129).  fileExists is the
os.path.exists test of line 30 on the per-species artifact path; when it
holds the function returns 0 immediately, issuing no request and touching
no file.  Otherwise the try body runs and any exception it raises is
caught at line 127 and converted to a 0 return with nothing written. -/
def download_species (cfg : Config) (species : String) (remote : Remote α)
    (fileExists : Bool) (fuel : Nat) : DownRes α :=
  if fileExists then .done 0 none false (initSt α)
  else
    match outerLoopB cfg species remote fuel (initSt α) with
    | .timeout s => .timeout s
    | .raised s => .done 0 none false s
    | .value r w warned s => .done r w warned s

def DownRes.st : DownRes α → St α
  | .timeout s => s
  | .done _ _ _ s => s

def DownRes.ret? : DownRes α → Option Int
  | .timeout _ => none
  | .done r _ _ _ => some r

def DownRes.written : DownRes α → Option (List α)
  | .timeout _ => none
  | .done _ w _ _ => w

def DownRes.warned : DownRes α → Bool
  | .timeout _ => false
  | .done _ _ warned _ => warned

def DownRes.isTimeout : DownRes α → Bool
  | .timeout _ => true
  | .done _ _ _ _ => false

/-! Embedding of download_species from src/gbif_v2.py (lines 15-69). -/

/-- Loop state of the v2 downloader: the issued-request trace, the offset
local, and all_results. -/
structure StV2 (α : Type) where
  issued : List Params
  offset : Nat
  allResults : List α
  deriving Repr, DecidableEq

def initStV2 (α : Type) : StV2 α :=
  { issued := [], offset := 0, allResults := [] }

/-- Observable outcome of the v2 download_species, as for DownRes. -/
inductive ResV2 (α : Type) where
  | timeout (s : StV2 α)
  | done (ret : Int) (written : Option (List α)) (s : StV2 α)
  deriving Repr, DecidableEq

/-- The pagination loop of src/gbif_v2.py (lines 37-60) followed by the
unconditional save at lines 63-66.  A RequestException is answered by
continue (line 60 of the except clause): the same offset is retried with
no bound on attempts, consuming fuel.  Any other exception from the search
call escapes to the outer except (line 67) and becomes a 0 return with no
file written.  On loop exit the accumulated list, empty or not, is dumped
to the species file and its length returned. -/
def v2Loop (species : String) (remote : Remote α) :
    Nat → StV2 α → ResV2 α
  | 0, s => .timeout s
  | f + 1, s =>
    let p := mkParamsV2 species 300 s.offset
    let s1 : StV2 α := { s with issued := s.issued ++ [p] }
    match remote s.issued.length p with
    | .fail => v2Loop species remote f s1
    | .err => .done 0 none s1
    | .ok d =>
      match d.results? with
      | none => .done (s1.allResults.length : Int) (some s1.allResults) s1
      | some rs =>
        if rs.isEmpty then .done (s1.allResults.length : Int) (some s1.allResults) s1
        else
        let s2 : StV2 α := { s1 with allResults := s1.allResults ++ rs }
        if rs.length < 300 then
          .done (s2.allResults.length : Int) (some s2.allResults) s2
        else
          v2Loop species remote f { s2 with offset := s2.offset + 300 }

/-- download_species of src/gbif_v2.py (lines 15-69): skip with a 0 return
when the artifact already exists (lines 21-24), else run the pagination
loop and save. -/
def download_species_v2 (species : String) (remote : Remote α)
    (fileExists : Bool) (fuel : Nat) : ResV2 α :=
  if fileExists then .done 0 none (initStV2 α)
  else v2Loop species remote fuel (initStV2 α)

def ResV2.st : ResV2 α → StV2 α
  | .timeout s => s
  | .done _ _ s => s

def ResV2.ret? : ResV2 α → Option Int
  | .timeout _ => none
  | .done r _ _ => some r

def ResV2.written : ResV2 α → Option (List α)
  | .timeout _ => none
  | .done _ w _ => w

/-! Embedding of verify_json_files from src/gbif.py (lines 131-162). -/

/-- The top-level JSON value an artifact file parses to: either a list of
records or something else (the isinstance test at line 148). -/
inductive JsonTop (α : Type) where
  | list (xs : List α)
  | nonList
  deriving Repr, DecidableEq

/-- What json.load does to one stored file: parsed t on success,
unparsable when it raises JSONDecodeError or UnicodeDecodeError
(line 154). -/
inductive FileData (α : Type) where
  | parsed (t : JsonTop α)
  | unparsable
  deriving Repr, DecidableEq

/-- The classification of lines 145-155: a file joins invalid_files when it
fails to parse or its top-level value is not a list; a file parsing to a
list, empty included, does not (the empty case only prints a warning at
line 153). -/
def isInvalidFile : FileData α → Bool
  | .parsed (.list _) => false
  | .parsed .nonList => true
  | .unparsable => true

/-- Python str.endswith on character lists: the file-name filter of
line 139. -/
def endsWithList (pat l : List Char) : Bool :=
  pat.length <= l.length && (List.drop (l.length - pat.length) l == pat)

/-- Python str.endswith lifted to String. -/
def strEndsWith (s pat : String) : Bool :=
  endsWithList pat.data s.data

/-- The accumulation of invalid_files over the loop at lines 140-155, in
directory-listing order. -/
def collectInvalid : List (String × FileData α) → List String
  | [] => []
  | (n, d) :: rest =>
    if isInvalidFile d then n :: collectInvalid rest else collectInvalid rest

/-- verify_json_files of src/gbif.py (lines 131-162).  The argument is the
occurrences directory: none when it does not exist (line 136 returns 0),
some listing otherwise, each entry a file name with what it parses to.
Result: the list of file paths removed by the deletion loop at lines
158-160, and the function's return value len(invalid_files). -/
def verify_json_files (dir? : Option (List (String × FileData α))) :
    List String × Nat :=
  match dir? with
  | none => ([], 0)
  | some listing =>
    let jsonFiles := listing.filter (fun nd => strEndsWith nd.1 ".json")
    let invalid := collectInvalid jsonFiles
    (invalid, invalid.length)

/-! Embedding of the filename transforms: src/gbif.py line 26 builds the
artifact name from the species name, src/json_trans.py line 51 recovers a
species name from the artifact name.  Python str.replace(old, new)
replaces every non-overlapping occurrence of old, scanning left to
right. -/

/-- startsWithList pat l: pat is an initial segment of l. -/
def startsWithList : List Char → List Char → Bool
  | [], _ => true
  | _ :: _, [] => false
  | c :: cs, x :: xs => c = x && startsWithList cs xs

/-- Python str.replace on character lists, fuel-indexed so the recursion
is structural: replace every non-overlapping occurrence of pat (non-empty
at every use site) by rep, scanning left to right.  Each step consumes one
unit of fuel and at least one character, so fuel = length of the input
always suffices (replaceAll below supplies it); the bare-fuel arm is never
reached from replaceAll. -/
def replaceAllF (pat rep : List Char) : Nat → List Char → List Char
  | _, [] => []
  | 0, l => l
  | f + 1, c :: rest =>
    if startsWithList pat (c :: rest) ∧ pat ≠ [] then
      rep ++ replaceAllF pat rep f ((c :: rest).drop pat.length)
    else
      c :: replaceAllF pat rep f rest

/-- Python str.replace on character lists. -/
def replaceAll (pat rep l : List Char) : List Char :=
  replaceAllF pat rep l.length l

/-- Occurrence test: does pat occur as a contiguous sublist of l? -/
def containsList (pat : List Char) : List Char → Bool
  | [] => false
  | c :: rest => startsWithList pat (c :: rest) || containsList pat rest

/-- The character list of the '.json' extension. -/
def jpat : List Char := ['.', 'j', 's', 'o', 'n']

/-- Python str.replace lifted to String. -/
def pyReplace (s old new : String) : String :=
  ⟨replaceAll old.data new.data s.data⟩

/-- src/gbif.py line 26: species_filename = species_name.replace(' ', '_')
followed by the '.json' extension. -/
def speciesFilename (species : String) : String :=
  pyReplace species " " "_" ++ ".json"

/-- src/json_trans.py line 51: species_name =
json_file.replace('_', ' ').replace('.json', ''). -/
def recoverSpecies (jsonFile : String) : String :=
  pyReplace (pyReplace jsonFile "_" " ") ".json" ""

/-! Simulated remotes used by the testable properties. -/

/-- A remote holding exactly total records, serving them in order through
offset/limit pagination with the declared total in every response:
the slice it returns for a request is records[offset : offset+limit],
i.e. the run of naturals starting at offset of length
min limit (total - offset). -/
def exactRemote (total : Nat) : Remote Nat :=
  fun _ p =>
    .ok { count? := some total
          results? := some (List.range' p.offset (min p.limit (total - p.offset))) }

/-- A remote that fails every request with a transport error. -/
def alwaysFail : Remote Nat := fun _ _ => .fail

/-- A remote that serves the first page (offset 0) of its total records
normally and fails every request at any other offset. -/
def stallRemote (total : Nat) : Remote Nat :=
  fun _ p =>
    if p.offset = 0 then
      .ok { count? := some total
            results? := some (List.range' 0 (min p.limit total)) }
    else .fail

/-! Further definitions used by statements and proofs. -/

def InnerOut.st : InnerOut α → St α
  | .broke s => s
  | .exhausted s => s
  | .raised s => s

def BodyRes.st : BodyRes α → St α
  | .timeout s => s
  | .raised s => s
  | .value _ _ _ s => s

/-- The pinned request shape of src/gbif.py lines 43-52: the filter set the
spec calls accepted-taxon-status only, presence-only, coordinate required,
geospatial-issue-free, with the fixed page size. -/
def pinned (cfg : Config) (p : Params) : Prop :=
  p.limit = cfg.limit ∧ p.status = some "ACCEPTED" ∧
    p.occurrenceStatus = some "PRESENT" ∧ p.hasCoordinate = some "true" ∧
    p.hasGeospatialIssue = some "false"

/-- The remote behavior under which the src/gbif.py pagination loop never
finishes: one full first page, then permanent transport failure.  The Prop
says every fuel bound is exhausted with the loop still running, i.e. the
call never returns to its caller. -/
def NeverReturns (species : String) (remote : Remote Nat) : Prop :=
  ∀ fuel : Nat,
    (download_species defaultConfig species remote false fuel).isTimeout = true

/-! Symbolic description of the run of src/gbif.py's pagination loop
against exactRemote: the number of records page k serves, the state after
k completed full pages, the state after the final page, the total page
count and the total record count of the whole run. -/

/-- Number of records served for the page at offset k * limit. -/
def pageLen (cfg : Config) (total k : Nat) : Nat :=
  min cfg.limit (total - k * cfg.limit)

/-- Number of pages the loop fetches from exactRemote total: the ceiling
of (min total cap) / limit, pages being cut off by whichever of the
declared total and the record cap is reached first. -/
def pTot (cfg : Config) (total : Nat) : Nat :=
  (min total cfg.maxRecords + cfg.limit - 1) / cfg.limit

/-- Number of records the loop accumulates from exactRemote total. -/
def capTotal (cfg : Config) (total : Nat) : Nat :=
  min total (pTot cfg total * cfg.limit)

/-- The loop state after k completed, non-final pages (each full and below
every stop threshold): offset advanced k pages, the first k * limit
records accumulated, the declared total known after the first page. -/
def runSt (cfg : Config) (species : String) (total k : Nat) : St Nat :=
  { issued := (List.range k).map (fun i => mkParams cfg species (i * cfg.limit))
    pageCount := k
    offset := k * cfg.limit
    totalRecords := if k = 0 then none else some total
    allResults := List.range' 0 (k * cfg.limit)
    recordCount := ((k * cfg.limit : Nat) : Int)
    lastData := if k = 0 then none else
      some { count? := some total
             results? := some (List.range' ((k - 1) * cfg.limit) cfg.limit) }
    lastResults := if k = 0 then none else
      some (List.range' ((k - 1) * cfg.limit) cfg.limit) }

/-- The loop state right after fetching a final page k (one that triggers
a stop condition): the page's records are accumulated but the offset is
not advanced (the break at line 99 fires before line 101). -/
def lastSt (cfg : Config) (species : String) (total k : Nat) : St Nat :=
  { issued := (List.range (k + 1)).map (fun i => mkParams cfg species (i * cfg.limit))
    pageCount := k + 1
    offset := k * cfg.limit
    totalRecords := some total
    allResults := List.range' 0 (k * cfg.limit + pageLen cfg total k)
    recordCount := ((k * cfg.limit + pageLen cfg total k : Nat) : Int)
    lastData := some { count? := some total
                       results? := some (List.range' (k * cfg.limit) (pageLen cfg total k)) }
    lastResults := some (List.range' (k * cfg.limit) (pageLen cfg total k)) }

/-- The family of loop states src/gbif.py is trapped in once stallRemote
has served its full first page and begun failing: offset stuck at 300, the
stale locals data and results still holding the full first page, 300
records accumulated, the declared total known.  The line-113 exit test is
false on every such state, so the outer loop re-enters the retry loop at
the same offset forever. -/
def stuckSt (total : Nat) (s : St Nat) : Prop :=
  s.offset = 300 ∧ s.recordCount = 300 ∧ s.totalRecords = some total ∧
    s.lastData = some { count? := some total, results? := some (List.range' 0 300) } ∧
    s.lastResults = some (List.range' 0 300)

/-! Theorems. -/

/-- C2: with the per-species artifact already present, download_species of
src/gbif.py and of src/gbif_v2.py both return 0 immediately: no request is
issued (the issued trace of the returned state is the empty initial one)
and nothing is written, whatever the remote does and however much fuel the
loops are given, so the artifact file is left untouched. -/
theorem claim_C2_skip_is_idempotent (α : Type) (cfg : Config) (species : String)
    (remote remote2 : Remote α) (fuel fuel2 : Nat) :
    download_species cfg species remote true fuel = .done 0 none false (initSt α) ∧
    (initSt α).issued = [] ∧
    download_species_v2 species remote2 true fuel2 = .done 0 none (initStV2 α) ∧
    (initStV2 α).issued = [] :=
  ⟨rfl, rfl, rfl, rfl⟩

/-- C4: against a remote failing every request, download_species of
src/gbif.py issues exactly RETRY_COUNT = 3 requests (all for the first
page, at offset 0), fetches no page, returns 0 and writes no artifact.
(In the source the exit at this point happens through the NameError raised
by reading the never-assigned local data at line 113, swallowed by the
except at line 127.) -/
theorem claim_C4_retry_exhaustion_first_page (species : String) (fuel : Nat)
    (hf : 1 ≤ fuel) :
    (download_species defaultConfig species alwaysFail false fuel).ret? = some 0 ∧
    (download_species defaultConfig species alwaysFail false fuel).written = none ∧
    (download_species defaultConfig species alwaysFail false fuel).st.issued.length
      = defaultConfig.retryCount ∧
    (download_species defaultConfig species alwaysFail false fuel).st.pageCount = 0 ∧
    (download_species defaultConfig species alwaysFail false fuel).st.issued.length = 3 := by
  obtain ⟨f, rfl⟩ : ∃ f, fuel = f + 1 := ⟨fuel - 1, by omega⟩
  simp [download_species, outerLoopB, innerLoop, alwaysFail, outerExit, defaultConfig,
    initSt, DownRes.ret?, DownRes.written, DownRes.st]

theorem claim_C4_witness :
    1 ≤ 1 ∧
    ((download_species defaultConfig "Abies alba" alwaysFail false 1).ret? = some 0 ∧
     (download_species defaultConfig "Abies alba" alwaysFail false 1).written = none ∧
     (download_species defaultConfig "Abies alba" alwaysFail false 1).st.issued.length
       = defaultConfig.retryCount ∧
     (download_species defaultConfig "Abies alba" alwaysFail false 1).st.pageCount = 0 ∧
     (download_species defaultConfig "Abies alba" alwaysFail false 1).st.issued.length = 3) :=
  ⟨Nat.le_refl 1, claim_C4_retry_exhaustion_first_page "Abies alba" 1 (Nat.le_refl 1)⟩

/-- C1 counterexample: for total = 0 the claimed request count
ceil(total / limit) is 0, but the code still issues one page request (it
must, to learn the count), so the claim fails at total = 0; no artifact is
produced there either, where the claim asks for one containing 0 records. -/
theorem claim_C1_counterexample :
    (download_species defaultConfig "Abies alba" (exactRemote 0) false 1).st.issued.length = 1 ∧
    (0 + 300 - 1) / 300 = 0 ∧
    (download_species defaultConfig "Abies alba" (exactRemote 0) false 1).written = none := by
  constructor
  · rfl
  · constructor
    · rfl
    · rfl

/-- Helper: the try body of src/gbif.py can only return a value through
lines 117-125, so a returned value whose final state accumulated no
records is the 0 return of line 125: nothing written, warning printed. -/
theorem outerLoopB_value_empty (cfg : Config) (species : String) (remote : Remote α) :
    ∀ (fuel : Nat) (st : St α) (r : Int) (w : Option (List α)) (warned : Bool) (s : St α),
      outerLoopB cfg species remote fuel st = .value r w warned s →
      s.allResults = [] → w = none ∧ warned = true ∧ r = 0 := by
  intro fuel
  induction fuel with
  | zero => intro st r w warned s h; simp [outerLoopB] at h
  | succ f ih =>
    intro st r w warned s h hs
    simp only [outerLoopB] at h
    split at h
    · exact absurd h (by simp)
    · split at h
      · exact absurd h (by simp)
      · unfold finishSave at h
        split at h
        · rename_i hemp
          obtain ⟨rfl, rfl, rfl, rfl⟩ := BodyRes.value.inj h
          exact ⟨rfl, rfl, rfl⟩
        · rename_i hne
          obtain ⟨rfl, rfl, rfl, rfl⟩ := BodyRes.value.inj h
          rw [hs] at hne
          simp at hne
      · exact ih _ _ _ _ _ h hs
    · split at h
      · exact absurd h (by simp)
      · unfold finishSave at h
        split at h
        · rename_i hemp
          obtain ⟨rfl, rfl, rfl, rfl⟩ := BodyRes.value.inj h
          exact ⟨rfl, rfl, rfl⟩
        · rename_i hne
          obtain ⟨rfl, rfl, rfl, rfl⟩ := BodyRes.value.inj h
          rw [hs] at hne
          simp at hne
      · exact ih _ _ _ _ _ h hs

/-- C5 (amended to src/gbif.py): whenever the src/gbif.py download body
completes with zero accumulated records, no artifact content is written,
the warning of line 124 is reported and 0 is returned; in particular, for
a remote declaring total = 0 and returning an empty first page, the call
returns 0 after one page request with nothing written and the warning
raised, so no artifact marks the species as done.  (src/gbif_v2.py does
not follow this policy: see the counterexample, which shows it writing an
empty artifact.) -/
theorem claim_C5_zero_records_no_artifact :
    (∀ (α : Type) (cfg : Config) (species : String) (remote : Remote α)
       (fuel : Nat) (r : Int) (w : Option (List α)) (warned : Bool) (s : St α),
        outerLoopB cfg species remote fuel (initSt α) = .value r w warned s →
        s.allResults = [] → w = none ∧ warned = true ∧ r = 0) ∧
    (∀ (species : String) (fuel : Nat), 1 ≤ fuel →
        (download_species defaultConfig species (exactRemote 0) false fuel).ret? = some 0 ∧
        (download_species defaultConfig species (exactRemote 0) false fuel).written = none ∧
        (download_species defaultConfig species (exactRemote 0) false fuel).warned = true ∧
        (download_species defaultConfig species (exactRemote 0) false fuel).st.issued.length = 1 ∧
        (download_species defaultConfig species (exactRemote 0) false fuel).st.pageCount = 1) := by
  constructor
  · intro α cfg species remote fuel r w warned s h hs
    exact outerLoopB_value_empty cfg species remote fuel _ r w warned s h hs
  · intro species fuel hf
    obtain ⟨f, rfl⟩ : ∃ f, fuel = f + 1 := ⟨fuel - 1, by omega⟩
    simp [download_species, outerLoopB, innerLoop, exactRemote, outerExit, finishSave,
      defaultConfig, initSt, DownRes.ret?, DownRes.written, DownRes.warned, DownRes.st]

theorem claim_C5_witness :
    (outerLoopB defaultConfig "Abies alba" (exactRemote 0) 1 (initSt Nat) =
      .value 0 none true
        ({ issued := [mkParams defaultConfig "Abies alba" 0]
           pageCount := 1
           offset := 0
           totalRecords := some 0
           allResults := []
           recordCount := 0
           lastData := some { count? := some 0, results? := some [] }
           lastResults := none } : St Nat)) ∧
    (none = (none : Option (List Nat)) ∧ true = true ∧ (0 : Int) = 0) ∧
    1 ≤ 1 ∧
    ((download_species defaultConfig "Abies alba" (exactRemote 0) false 1).ret? = some 0 ∧
     (download_species defaultConfig "Abies alba" (exactRemote 0) false 1).written = none ∧
     (download_species defaultConfig "Abies alba" (exactRemote 0) false 1).warned = true ∧
     (download_species defaultConfig "Abies alba" (exactRemote 0) false 1).st.issued.length = 1 ∧
     (download_species defaultConfig "Abies alba" (exactRemote 0) false 1).st.pageCount = 1) := by
  have h0 : outerLoopB defaultConfig "Abies alba" (exactRemote 0) 1 (initSt Nat) =
      .value 0 none true
        ({ issued := [mkParams defaultConfig "Abies alba" 0]
           pageCount := 1
           offset := 0
           totalRecords := some 0
           allResults := []
           recordCount := 0
           lastData := some { count? := some 0, results? := some [] }
           lastResults := none } : St Nat) := by decide
  exact ⟨h0,
    claim_C5_zero_records_no_artifact.1 Nat defaultConfig "Abies alba" (exactRemote 0)
      1 0 none true _ h0 rfl,
    Nat.le_refl 1, claim_C5_zero_records_no_artifact.2 "Abies alba" 1 (Nat.le_refl 1)⟩

/-- C5 counterexample: src/gbif_v2.py, whose save step (lines 62-66) is
unconditional, writes an empty artifact for a remote declaring total = 0,
so the species is recorded as done and is not retried; the claim as stated
over both downloaders is therefore false. -/
theorem claim_C5_counterexample :
    (download_species_v2 "Abies alba" (exactRemote 0) false 1).written = some [] ∧
    (download_species_v2 "Abies alba" (exactRemote 0) false 1).ret? = some 0 := by
  decide

/-- Helper: requests built by src/gbif.py always carry the pinned filter
set. -/
theorem pinned_mkParams (cfg : Config) (species : String) (offset : Nat) :
    pinned cfg (mkParams cfg species offset) := by
  simp [pinned, mkParams]

/-- Helper: every request the inner retry loop adds to the trace is built
by mkParams, so the trace invariant of carrying the pinned filters is
preserved. -/
theorem innerLoop_pinned (cfg : Config) (species : String) (remote : Remote α) :
    ∀ (n : Nat) (s : St α), (∀ p ∈ s.issued, pinned cfg p) →
      ∀ p ∈ (innerLoop cfg species remote n s).st.issued, pinned cfg p := by
  intro n
  induction n with
  | zero => intro s h; simpa [innerLoop, InnerOut.st] using h
  | succ k ih =>
    intro s h
    have hext : ∀ p ∈ s.issued ++ [mkParams cfg species s.offset], pinned cfg p := by
      intro p hp
      rcases List.mem_append.1 hp with h1 | h1
      · exact h p h1
      · rw [List.mem_singleton.1 h1]; exact pinned_mkParams cfg species s.offset
    simp only [innerLoop]
    split
    · exact ih _ hext
    · simpa [InnerOut.st] using hext
    · split
      · simpa [InnerOut.st] using hext
      · split
        · simpa [InnerOut.st] using hext
        · split
          · simpa [InnerOut.st] using hext
          · simpa [InnerOut.st] using hext

/-- Helper: the save step does not change the loop state. -/
theorem finishSave_st (s : St α) : (finishSave s).st = s := by
  unfold finishSave
  split <;> rfl

/-- Helper: the pinned-filter trace invariant is preserved by the whole
pagination body. -/
theorem outerLoopB_pinned (cfg : Config) (species : String) (remote : Remote α) :
    ∀ (fuel : Nat) (s : St α), (∀ p ∈ s.issued, pinned cfg p) →
      ∀ p ∈ (outerLoopB cfg species remote fuel s).st.issued, pinned cfg p := by
  intro fuel
  induction fuel with
  | zero => intro s h; simpa [outerLoopB, BodyRes.st] using h
  | succ f ih =>
    intro s h
    have hin := innerLoop_pinned cfg species remote cfg.retryCount s h
    simp only [outerLoopB]
    split
    · rename_i s1 heq
      rw [heq] at hin; simpa [InnerOut.st, BodyRes.st] using hin
    · rename_i s1 heq
      rw [heq] at hin; simp only [InnerOut.st] at hin
      split
      · simpa [BodyRes.st] using hin
      · rw [finishSave_st]; exact hin
      · exact ih _ hin
    · rename_i s1 heq
      rw [heq] at hin; simp only [InnerOut.st] at hin
      split
      · simpa [BodyRes.st] using hin
      · rw [finishSave_st]; exact hin
      · exact ih _ hin

/-- Helper: the state reported by download_species is the state of its
body run. -/
theorem download_species_st (cfg : Config) (species : String) (remote : Remote α)
    (fuel : Nat) :
    (download_species cfg species remote false fuel).st =
      (outerLoopB cfg species remote fuel (initSt α)).st := by
  unfold download_species
  simp only [if_neg Bool.false_ne_true]
  split <;> rename_i heq <;> rw [heq] <;> rfl

/-- C8 (amended to src/gbif.py): every page request issued by
download_species of src/gbif.py carries the pinned filter set of lines
43-52: taxon status ACCEPTED, occurrence status PRESENT, hasCoordinate
true, hasGeospatialIssue false, and page size 300.  (src/gbif_v2.py's
requests carry none of the filter parameters: see the counterexample.) -/
theorem claim_C8_pinned_filters (α : Type) (species : String) (remote : Remote α)
    (fileExists : Bool) (fuel : Nat) :
    ∀ p ∈ (download_species defaultConfig species remote fileExists fuel).st.issued,
      p.limit = 300 ∧ p.status = some "ACCEPTED" ∧
        p.occurrenceStatus = some "PRESENT" ∧ p.hasCoordinate = some "true" ∧
        p.hasGeospatialIssue = some "false" := by
  intro p hp
  cases fileExists with
  | true =>
    simp [download_species, DownRes.st, initSt] at hp
  | false =>
    rw [download_species_st] at hp
    have := outerLoopB_pinned defaultConfig species remote fuel (initSt α)
      (by simp [initSt]) p hp
    simpa [pinned, defaultConfig] using this

theorem claim_C8_witness :
    mkParams defaultConfig "Abies alba" 0 ∈
      (download_species defaultConfig "Abies alba" (exactRemote 0) false 1).st.issued ∧
    ((mkParams defaultConfig "Abies alba" 0).limit = 300 ∧
     (mkParams defaultConfig "Abies alba" 0).status = some "ACCEPTED" ∧
     (mkParams defaultConfig "Abies alba" 0).occurrenceStatus = some "PRESENT" ∧
     (mkParams defaultConfig "Abies alba" 0).hasCoordinate = some "true" ∧
     (mkParams defaultConfig "Abies alba" 0).hasGeospatialIssue = some "false") :=
  ⟨by decide,
   claim_C8_pinned_filters Nat "Abies alba" (exactRemote 0) false 1
     (mkParams defaultConfig "Abies alba" 0) (by decide)⟩

/-- C8 counterexample: the single page request issued by src/gbif_v2.py's
download_species against an empty remote carries no taxon-status,
occurrence-status, coordinate or geospatial-issue parameter at all, so the
claim is false for that downloader. -/
theorem claim_C8_counterexample :
    ((download_species_v2 "Abies alba" (exactRemote 0) false 1).st.issued.map
        Params.status) = [none] ∧
    ((download_species_v2 "Abies alba" (exactRemote 0) false 1).st.issued.map
        Params.occurrenceStatus) = [none] ∧
    ((download_species_v2 "Abies alba" (exactRemote 0) false 1).st.issued.map
        Params.hasCoordinate) = [none] ∧
    ((download_species_v2 "Abies alba" (exactRemote 0) false 1).st.issued.map
        Params.hasGeospatialIssue) = [none] ∧
    (download_species_v2 "Abies alba" (exactRemote 0) false 1).st.issued.length = 1 := by
  decide

/-- Helper: membership in the invalid_files accumulation. -/
theorem mem_collectInvalid {α : Type} (n : String) :
    ∀ l : List (String × FileData α),
      n ∈ collectInvalid l ↔ ∃ d, (n, d) ∈ l ∧ isInvalidFile d = true := by
  intro l
  induction l with
  | nil => simp [collectInvalid]
  | cons nd rest ih =>
    obtain ⟨m, d0⟩ := nd
    by_cases hinv : isInvalidFile d0 = true
    · simp only [collectInvalid, if_pos hinv, List.mem_cons, ih, Prod.mk.injEq]
      constructor
      · rintro (rfl | ⟨d, hd, hv⟩)
        · exact ⟨d0, Or.inl ⟨rfl, rfl⟩, hinv⟩
        · exact ⟨d, Or.inr hd, hv⟩
      · rintro ⟨d, ⟨rfl, rfl⟩ | hd, hv⟩
        · exact Or.inl rfl
        · exact Or.inr ⟨d, hd, hv⟩
    · simp only [collectInvalid, if_neg hinv, List.mem_cons, ih, Prod.mk.injEq]
      constructor
      · rintro ⟨d, hd, hv⟩
        exact ⟨d, Or.inr hd, hv⟩
      · rintro ⟨d, ⟨rfl, rfl⟩ | hd, hv⟩
        · exact absurd hv hinv
        · exact ⟨d, hd, hv⟩

/-- Helper: in a listing with no duplicate file names, a name determines
its file data. -/
theorem keys_nodup_unique {α : Type} :
    ∀ (l : List (String × FileData α)), (l.map Prod.fst).Nodup →
      ∀ n d d', (n, d) ∈ l → (n, d') ∈ l → d = d' := by
  intro l
  induction l with
  | nil => intro _ n d d' h; simp at h
  | cons nd rest ih =>
    intro hnd n d d' hd hd'
    obtain ⟨m, d0⟩ := nd
    simp only [List.map_cons, List.nodup_cons, List.mem_map] at hnd
    obtain ⟨hm, hrest⟩ := hnd
    rcases List.mem_cons.1 hd with h1 | h1 <;> rcases List.mem_cons.1 hd' with h2 | h2
    · obtain ⟨rfl, rfl⟩ := Prod.mk.inj h1
      obtain ⟨-, rfl⟩ := Prod.mk.inj h2
      rfl
    · obtain ⟨rfl, rfl⟩ := Prod.mk.inj h1
      exact absurd ⟨(n, d'), h2, rfl⟩ hm
    · obtain ⟨rfl, rfl⟩ := Prod.mk.inj h2
      exact absurd ⟨(n, d), h1, rfl⟩ hm
    · exact ih hrest n d d' h1 h2

/-- C7: over any occurrences listing without duplicate names,
verify_json_files returns the number of files it deletes; a .json file is
deleted exactly when it fails to parse or parses to a non-list top-level
value; every file parsing to a list, the empty list included, is kept; and
everything deleted is an existing .json file that was invalid. -/
theorem claim_C7_integrity_scanner (α : Type) (listing : List (String × FileData α))
    (hnd : (listing.map Prod.fst).Nodup) :
    (verify_json_files (some listing)).2 = (verify_json_files (some listing)).1.length ∧
    (∀ n d, (n, d) ∈ listing → strEndsWith n ".json" = true →
        (n ∈ (verify_json_files (some listing)).1 ↔ isInvalidFile d = true)) ∧
    (∀ n, (n, FileData.parsed (JsonTop.list ([] : List α))) ∈ listing →
        n ∉ (verify_json_files (some listing)).1) ∧
    (∀ n, n ∈ (verify_json_files (some listing)).1 →
        ∃ d, (n, d) ∈ listing ∧ strEndsWith n ".json" = true ∧ isInvalidFile d = true) := by
  have hmem : ∀ n, n ∈ (verify_json_files (some listing)).1 ↔
      ∃ d, (n, d) ∈ listing ∧ strEndsWith n ".json" = true ∧ isInvalidFile d = true := by
    intro n
    simp only [verify_json_files, mem_collectInvalid, List.mem_filter]
    constructor
    · rintro ⟨d, ⟨hd, he⟩, hv⟩
      exact ⟨d, hd, he, hv⟩
    · rintro ⟨d, hd, he, hv⟩
      exact ⟨d, ⟨hd, he⟩, hv⟩
  refine ⟨rfl, ?_, ?_, fun n hn => (hmem n).1 hn⟩
  · intro n d hd he
    rw [hmem n]
    constructor
    · rintro ⟨d', hd', -, hv⟩
      rw [keys_nodup_unique listing hnd n d d' hd hd']
      exact hv
    · intro hv
      exact ⟨d, hd, he, hv⟩
  · intro n hd hn
    obtain ⟨d', hd', -, hv⟩ := (hmem n).1 hn
    rw [← keys_nodup_unique listing hnd n _ d' hd hd'] at hv
    simp [isInvalidFile] at hv

theorem claim_C7_witness :
    (([("a.json", FileData.parsed (JsonTop.list ([] : List Nat))),
       ("b.json", FileData.unparsable),
       ("c.json", FileData.parsed JsonTop.nonList),
       ("d.txt", FileData.unparsable),
       ("e.json", FileData.parsed (JsonTop.list [7]))].map Prod.fst).Nodup) ∧
    ((verify_json_files (some
        [("a.json", FileData.parsed (JsonTop.list ([] : List Nat))),
         ("b.json", FileData.unparsable),
         ("c.json", FileData.parsed JsonTop.nonList),
         ("d.txt", FileData.unparsable),
         ("e.json", FileData.parsed (JsonTop.list [7]))])).1 = ["b.json", "c.json"]) ∧
    ((verify_json_files (some
        [("a.json", FileData.parsed (JsonTop.list ([] : List Nat))),
         ("b.json", FileData.unparsable),
         ("c.json", FileData.parsed JsonTop.nonList),
         ("d.txt", FileData.unparsable),
         ("e.json", FileData.parsed (JsonTop.list [7]))])).2 =
      (verify_json_files (some
        [("a.json", FileData.parsed (JsonTop.list ([] : List Nat))),
         ("b.json", FileData.unparsable),
         ("c.json", FileData.parsed JsonTop.nonList),
         ("d.txt", FileData.unparsable),
         ("e.json", FileData.parsed (JsonTop.list [7]))])).1.length) := by
  refine ⟨by decide, by decide, ?_⟩
  exact (claim_C7_integrity_scanner Nat _ (by decide)).1

/-- Helper: ceiling-division bound used to count pages. -/
theorem lt_ceil_iff (l m k : Nat) (hl : 0 < l) : k * l < m ↔ k < (m + l - 1) / l := by
  have h : (k < (m + l - 1) / l) ↔ (k + 1 ≤ (m + l - 1) / l) := Iff.rfl
  rw [h, Nat.le_div_iff_mul_le hl, Nat.add_mul, Nat.one_mul]
  generalize k * l = a
  omega

/-- Helper: ceiling division rounds up. -/
theorem ceil_mul_ge (l m : Nat) (hl : 0 < l) : m ≤ ((m + l - 1) / l) * l := by
  have h1 := Nat.div_add_mod (m + l - 1) l
  have h2 := Nat.mod_lt (m + l - 1) hl
  rw [Nat.mul_comm]
  generalize (m + l - 1) / l = q at *
  generalize hq : l * q = a at *
  generalize (m + l - 1) % l = r at *
  omega

/-- Helper: one successful fetch of a full, non-final page from
exactRemote advances the loop state from k completed pages to k + 1. -/
theorem inner_exact_cont (cfg : Config) (species : String) (total k : Nat)
    (hr : 1 ≤ cfg.retryCount) (hl : 1 ≤ cfg.limit)
    (hc1 : (k + 1) * cfg.limit < total) (hc2 : (k + 1) * cfg.limit < cfg.maxRecords) :
    innerLoop cfg species (exactRemote total) cfg.retryCount (runSt cfg species total k) =
      .broke (runSt cfg species total (k + 1)) := by
  obtain ⟨n, hn⟩ : ∃ n, cfg.retryCount = n + 1 := ⟨cfg.retryCount - 1, by omega⟩
  rw [hn]
  have hkl : k * cfg.limit + cfg.limit = (k + 1) * cfg.limit := by ring
  have hmin : min cfg.limit (total - k * cfg.limit) = cfg.limit :=
    Nat.min_eq_left (by omega)
  have hgetD : (if k = 0 then (none : Option Nat) else some total).getD total = total := by
    split <;> rfl
  simp only [innerLoop, exactRemote, mkParams, runSt, Option.getD_some, hgetD, hmin]
  rw [if_neg (by simp only [List.isEmpty_eq_true, List.range'_eq_nil]; omega)]
  rw [if_neg ?hcond]
  case hcond =>
    have h2 : k * cfg.limit + cfg.limit < cfg.maxRecords := by rw [hkl]; exact hc2
    have h3 : k * cfg.limit + cfg.limit < total := by rw [hkl]; exact hc1
    simp only [List.length_range', not_or, not_lt, not_le]
    refine ⟨Nat.le_refl _, ?_, ?_⟩
    · exact_mod_cast h2
    · exact_mod_cast h3
  congr 1
  rw [St.mk.injEq]
  refine ⟨?_, rfl, hkl, ?_, ?_, ?_, ?_, ?_⟩
  · rw [List.range_succ, List.map_append]
    simp
  · simp
  · have h2 : (k + 1) * cfg.limit = cfg.limit + k * cfg.limit := by ring
    rw [h2, ← List.range'_append_1]
    simp
  · simp only [List.length_range']
    push_cast
    ring
  · simp
  · simp

/-- Helper: fetching a page that triggers a stop condition (short page,
cap reached, or declared total reached) breaks with the page accumulated
and the offset not advanced. -/
theorem inner_exact_last (cfg : Config) (species : String) (total k : Nat)
    (hr : 1 ≤ cfg.retryCount) (hl : 1 ≤ cfg.limit)
    (hk : k * cfg.limit < total)
    (hbrk : total ≤ (k + 1) * cfg.limit ∨ cfg.maxRecords ≤ (k + 1) * cfg.limit) :
    innerLoop cfg species (exactRemote total) cfg.retryCount (runSt cfg species total k) =
      .broke (lastSt cfg species total k) := by
  obtain ⟨n, hn⟩ : ∃ n, cfg.retryCount = n + 1 := ⟨cfg.retryCount - 1, by omega⟩
  rw [hn]
  have hkl : k * cfg.limit + cfg.limit = (k + 1) * cfg.limit := by ring
  have hgetD : (if k = 0 then (none : Option Nat) else some total).getD total = total := by
    split <;> rfl
  simp only [innerLoop, exactRemote, mkParams, runSt, lastSt, pageLen,
    Option.getD_some, hgetD]
  rw [if_neg (by simp only [List.isEmpty_eq_true, List.range'_eq_nil]; omega)]
  rw [if_pos ?hcond]
  case hcond =>
    simp only [List.length_range']
    rcases Nat.lt_or_ge total ((k + 1) * cfg.limit) with hc | hc
    · left
      omega
    · have hfull : min cfg.limit (total - k * cfg.limit) = cfg.limit :=
        Nat.min_eq_left (by omega)
      rw [hfull]
      rcases hbrk with hb | hb
      · right; right
        have hge : total ≤ k * cfg.limit + cfg.limit := by omega
        exact_mod_cast hge
      · right; left
        have hge : cfg.maxRecords ≤ k * cfg.limit + cfg.limit := by omega
        exact_mod_cast hge
  congr 1
  rw [St.mk.injEq]
  refine ⟨?_, rfl, rfl, ?_, ?_, ?_, rfl, rfl⟩
  · rw [List.range_succ, List.map_append]
    simp
  · simp
  · have h2 : k * cfg.limit + min cfg.limit (total - k * cfg.limit) =
        min cfg.limit (total - k * cfg.limit) + k * cfg.limit := by ring
    rw [h2, ← List.range'_append_1]
    simp
  · simp only [List.length_range']
    push_cast
    ring

/-- Helper: after a full page below every threshold the stale-data exit
test of line 113 lets the outer loop continue. -/
theorem outerExit_cont (cfg : Config) (species : String) (total k : Nat)
    (hl : 1 ≤ cfg.limit)
    (hc1 : (k + 1) * cfg.limit < total) (hc2 : (k + 1) * cfg.limit < cfg.maxRecords) :
    outerExit cfg (runSt cfg species total (k + 1)) = some false := by
  have hkl : k * cfg.limit + cfg.limit = (k + 1) * cfg.limit := by ring
  simp only [outerExit, runSt, Nat.succ_ne_zero, if_false, Nat.add_sub_cancel]
  rw [if_neg (by simp only [List.isEmpty_eq_true, List.range'_eq_nil]; omega)]
  rw [if_neg (by simp only [List.length_range']; omega)]
  rw [if_neg ?hcap]
  case hcap =>
    simp only [not_le]
    exact_mod_cast hc2
  simp only [Option.some.injEq, decide_eq_false_iff_not, not_le]
  exact_mod_cast hc1

/-- Helper: after a stop-condition page the exit test of line 113 fires
and the loop ends. -/
theorem outerExit_last (cfg : Config) (species : String) (total k : Nat)
    (hl : 1 ≤ cfg.limit) (hk : k * cfg.limit < total)
    (hbrk : total ≤ (k + 1) * cfg.limit ∨ cfg.maxRecords ≤ (k + 1) * cfg.limit) :
    outerExit cfg (lastSt cfg species total k) = some true := by
  have hkl : k * cfg.limit + cfg.limit = (k + 1) * cfg.limit := by ring
  have hpl : 1 ≤ pageLen cfg total k := by unfold pageLen; omega
  simp only [outerExit, lastSt]
  rw [if_neg (by simp only [List.isEmpty_eq_true, List.range'_eq_nil]; omega)]
  by_cases hshort : pageLen cfg total k < cfg.limit
  · rw [if_pos (by simp only [List.length_range']; exact hshort)]
  · have hfull : pageLen cfg total k = cfg.limit := by
      unfold pageLen at *
      omega
    rw [if_neg (by simp only [List.length_range']; omega)]
    by_cases hcap : ((cfg.maxRecords : Nat) : Int) ≤
        ((k * cfg.limit + pageLen cfg total k : Nat) : Int)
    · rw [if_pos hcap]
    · rw [if_neg hcap]
      have htot : total ≤ k * cfg.limit + pageLen cfg total k := by
        rcases hbrk with hb | hb
        · omega
        · exfalso
          have : cfg.maxRecords ≤ k * cfg.limit + pageLen cfg total k := by omega
          exact hcap (by exact_mod_cast this)
      simp only [Option.some.injEq, decide_eq_true_eq, ge_iff_le]
      exact_mod_cast htot

/-- Helper: the initial loop state is the zero-pages run state. -/
theorem runSt_zero (cfg : Config) (species : String) (total : Nat) :
    runSt cfg species total 0 = initSt Nat := by
  simp [runSt, initSt]

/-- Helper: the full symbolic run of src/gbif.py's pagination loop against
exactRemote total, from any number k of completed full pages: with enough
fuel it returns min total (pTot * limit) records, writes exactly the run
of naturals of that length in order, and ends in the final-page state with
pTot pages fetched. -/
theorem outer_exact (cfg : Config) (species : String) (total : Nat)
    (hl : 1 ≤ cfg.limit) (hr : 1 ≤ cfg.retryCount) :
    ∀ (fuel k : Nat), k * cfg.limit < min total cfg.maxRecords →
      pTot cfg total ≤ k + fuel →
      outerLoopB cfg species (exactRemote total) fuel (runSt cfg species total k) =
        .value ((capTotal cfg total : Nat) : Int)
          (some (List.range' 0 (capTotal cfg total)))
          false (lastSt cfg species total (pTot cfg total - 1)) := by
  intro fuel
  induction fuel with
  | zero =>
    intro k hk hf
    exfalso
    have h1 := (lt_ceil_iff cfg.limit (min total cfg.maxRecords) k (by omega)).1 hk
    unfold pTot at hf
    omega
  | succ f ih =>
    intro k hk hf
    have hkmin : k * cfg.limit < total := Nat.lt_of_lt_of_le hk (Nat.min_le_left _ _)
    by_cases hcont : (k + 1) * cfg.limit < total ∧ (k + 1) * cfg.limit < cfg.maxRecords
    · obtain ⟨hc1, hc2⟩ := hcont
      have step := inner_exact_cont cfg species total k hr hl hc1 hc2
      have hexit := outerExit_cont cfg species total k hl hc1 hc2
      simp only [outerLoopB, step, hexit]
      exact ih (k + 1) (by omega) (by omega)
    · have hbrk : total ≤ (k + 1) * cfg.limit ∨ cfg.maxRecords ≤ (k + 1) * cfg.limit := by
        rcases Nat.lt_or_ge ((k + 1) * cfg.limit) total with h | h
        · rcases Nat.lt_or_ge ((k + 1) * cfg.limit) cfg.maxRecords with h2 | h2
          · exact absurd ⟨h, h2⟩ hcont
          · exact Or.inr h2
        · exact Or.inl h
      have hkl : k * cfg.limit + cfg.limit = (k + 1) * cfg.limit := by ring
      have hmin : min total cfg.maxRecords ≤ (k + 1) * cfg.limit := by omega
      have hpt : pTot cfg total = k + 1 := by
        have h1 := (lt_ceil_iff cfg.limit (min total cfg.maxRecords) k (by omega)).1 hk
        have h2 : ¬(k + 1 < pTot cfg total) := by
          intro hh
          have := (lt_ceil_iff cfg.limit (min total cfg.maxRecords) (k + 1) (by omega)).2
          unfold pTot at hh
          have h3 := this hh
          omega
        unfold pTot at h1 h2 ⊢
        omega
      have hcap2 : k * cfg.limit + pageLen cfg total k = capTotal cfg total := by
        unfold capTotal pageLen
        rw [hpt]
        omega
      have step := inner_exact_last cfg species total k hr hl hkmin hbrk
      have hexit := outerExit_last cfg species total k hl hkmin hbrk
      simp only [outerLoopB, step, hexit]
      unfold finishSave
      rw [if_neg ?hne]
      case hne =>
        simp only [lastSt, List.isEmpty_eq_true, List.range'_eq_nil]
        have hpl : 1 ≤ pageLen cfg total k := by unfold pageLen; omega
        omega
      rw [hpt]
      simp only [Nat.add_sub_cancel, lastSt, ← hcap2]

/-- C1 (amended): for a remote holding exactly total records served in
order through offset pagination, with 1 ≤ total ≤ MAX_RECORDS_PER_SPECIES,
src/gbif.py's download_species issues exactly ceil(total / 300) page
requests, fetches that many pages, returns total, and persists exactly the
total records in page-then-within-page order (the artifact is the ordered
run 0,...,total-1 of record indices).  (At total = 0 the code instead
issues one request and writes nothing: see the counterexample.) -/
theorem claim_C1_pagination_termination (species : String) (total fuel : Nat)
    (h1 : 1 ≤ total) (h2 : total ≤ 10000000)
    (hf : (total + 300 - 1) / 300 ≤ fuel) :
    (download_species defaultConfig species (exactRemote total) false fuel).ret? =
        some ((total : Nat) : Int) ∧
    (download_species defaultConfig species (exactRemote total) false fuel).written =
        some (List.range' 0 total) ∧
    (download_species defaultConfig species (exactRemote total) false fuel).st.issued.length =
        (total + 300 - 1) / 300 ∧
    (download_species defaultConfig species (exactRemote total) false fuel).st.pageCount =
        (total + 300 - 1) / 300 := by
  have hmin : min total defaultConfig.maxRecords = total :=
    Nat.min_eq_left (by show total ≤ 10000000; omega)
  have hpt : pTot defaultConfig total = (total + 300 - 1) / 300 := by
    unfold pTot
    rw [hmin]
    rfl
  have hct : capTotal defaultConfig total = total := by
    unfold capTotal
    refine Nat.min_eq_left ?_
    rw [hpt]
    exact ceil_mul_ge 300 total (by omega)
  have hrun := outer_exact defaultConfig species total (by decide) (by decide) fuel 0
    (by rw [hmin]; omega) (by rw [hpt]; omega)
  simp only [download_species, if_neg Bool.false_ne_true]
  rw [← runSt_zero defaultConfig species total, hrun, hct]
  simp only [DownRes.ret?, DownRes.written, DownRes.st, lastSt, List.length_map,
    List.length_range]
  refine ⟨trivial, trivial, ?_, ?_⟩ <;> rw [hpt] <;> omega

theorem claim_C1_witness :
    1 ≤ 1 ∧ 1 ≤ 10000000 ∧ (1 + 300 - 1) / 300 ≤ 1 ∧
    ((download_species defaultConfig "Abies alba" (exactRemote 1) false 1).ret? =
        some ((1 : Nat) : Int) ∧
     (download_species defaultConfig "Abies alba" (exactRemote 1) false 1).written =
        some (List.range' 0 1) ∧
     (download_species defaultConfig "Abies alba" (exactRemote 1) false 1).st.issued.length =
        (1 + 300 - 1) / 300 ∧
     (download_species defaultConfig "Abies alba" (exactRemote 1) false 1).st.pageCount =
        (1 + 300 - 1) / 300) :=
  ⟨by decide, by decide, by decide,
   claim_C1_pagination_termination "Abies alba" 1 1 (by decide) (by decide) (by decide)⟩

/-- Helper: the exit test of line 113 lets the pagination loop continue
(and so lets further page requests be issued) only while the accumulated
record count is strictly below MAX_RECORDS_PER_SPECIES — for every remote
behavior and every state. -/
theorem outerExit_below_cap (cfg : Config) (s : St α) :
    outerExit cfg s = some false → s.recordCount < (cfg.maxRecords : Int) := by
  intro h
  unfold outerExit at h
  split at h
  · exact absurd h (by simp)
  · split at h
    · exact absurd h (by simp)
    · split at h
      · exact absurd h (by simp)
      · split at h
        · exact absurd h (by simp)
        · split at h
          · exact absurd h (by simp)
          · split at h
            · exact absurd h (by simp)
            · rename_i hcap
              omega

/-- C6: cap enforcement.  First, for every remote and every state, the
pagination loop of src/gbif.py continues past a page only while the
accumulated count is below the cap, so no page request is ever issued
after the page on which the cap is reached.  Second, quantitatively: for
every cap ≥ 1 and every exact remote whose declared total exceeds the cap,
the run fetches exactly ceil(cap / 300) pages, issues exactly that many
requests, and returns an accumulated count ≥ cap. -/
theorem claim_C6_cap_enforcement :
    (∀ (α : Type) (cfg : Config) (s : St α),
        outerExit cfg s = some false → s.recordCount < (cfg.maxRecords : Int)) ∧
    (∀ (species : String) (cap total fuel : Nat), 1 ≤ cap → cap < total →
        (cap + 300 - 1) / 300 ≤ fuel →
        (download_species { limit := 300, retryCount := 3, maxRecords := cap } species
            (exactRemote total) false fuel).ret? =
            some ((capTotal { limit := 300, retryCount := 3, maxRecords := cap } total : Nat) : Int) ∧
        cap ≤ capTotal { limit := 300, retryCount := 3, maxRecords := cap } total ∧
        (download_species { limit := 300, retryCount := 3, maxRecords := cap } species
            (exactRemote total) false fuel).st.issued.length = (cap + 300 - 1) / 300 ∧
        (download_species { limit := 300, retryCount := 3, maxRecords := cap } species
            (exactRemote total) false fuel).st.pageCount = (cap + 300 - 1) / 300) := by
  constructor
  · intro α cfg s h
    exact outerExit_below_cap cfg s h
  · intro species cap total fuel hcap hlt hf
    have hmin : min total cap = cap := Nat.min_eq_right (Nat.le_of_lt hlt)
    have hpt : pTot { limit := 300, retryCount := 3, maxRecords := cap } total =
        (cap + 300 - 1) / 300 := by
      unfold pTot
      rw [show (min total { limit := 300, retryCount := 3, maxRecords := cap : Config }.maxRecords) = cap from hmin]
    have hct : cap ≤ capTotal { limit := 300, retryCount := 3, maxRecords := cap } total := by
      unfold capTotal
      refine le_min (Nat.le_of_lt hlt) ?_
      rw [hpt]
      exact ceil_mul_ge 300 cap (by omega)
    have hrun := outer_exact { limit := 300, retryCount := 3, maxRecords := cap } species total
      (by show 1 ≤ 300; omega) (by show 1 ≤ 3; omega) fuel 0
      (by show 0 * 300 < min total cap; omega) (by rw [hpt]; omega)
    simp only [download_species, if_neg Bool.false_ne_true]
    rw [← runSt_zero { limit := 300, retryCount := 3, maxRecords := cap } species total, hrun]
    simp only [DownRes.ret?, DownRes.written, DownRes.st, lastSt, List.length_map,
      List.length_range]
    refine ⟨trivial, hct, ?_, ?_⟩ <;> rw [hpt] <;> omega

theorem claim_C6_witness :
    1 ≤ 5 ∧ 5 < 700 ∧ (5 + 300 - 1) / 300 ≤ 1 ∧
    ((download_species { limit := 300, retryCount := 3, maxRecords := 5 } "Abies alba"
        (exactRemote 700) false 1).ret? =
      some ((capTotal { limit := 300, retryCount := 3, maxRecords := 5 } 700 : Nat) : Int) ∧
     5 ≤ capTotal { limit := 300, retryCount := 3, maxRecords := 5 } 700 ∧
     (download_species { limit := 300, retryCount := 3, maxRecords := 5 } "Abies alba"
        (exactRemote 700) false 1).st.issued.length = (5 + 300 - 1) / 300 ∧
     (download_species { limit := 300, retryCount := 3, maxRecords := 5 } "Abies alba"
        (exactRemote 700) false 1).st.pageCount = (5 + 300 - 1) / 300) :=
  ⟨by decide, by decide, by decide,
   claim_C6_cap_enforcement.2 "Abies alba" 5 700 1 (by decide) (by decide) (by decide)⟩

/-- Helper: at a non-zero offset every stallRemote attempt fails, so the
inner retry loop burns its whole budget and reports exhaustion with every
loop local unchanged (only the request trace grows). -/
theorem innerLoop_stall (species : String) (total : Nat) :
    ∀ (n : Nat) (s : St Nat), s.offset ≠ 0 →
      ∃ s', innerLoop defaultConfig species (stallRemote total) n s = .exhausted s' ∧
        s'.offset = s.offset ∧ s'.recordCount = s.recordCount ∧
        s'.totalRecords = s.totalRecords ∧ s'.lastData = s.lastData ∧
        s'.lastResults = s.lastResults := by
  intro n
  induction n with
  | zero =>
    intro s h
    exact ⟨s, rfl, rfl, rfl, rfl, rfl, rfl⟩
  | succ k ih =>
    intro s h
    have hfail : stallRemote total s.issued.length
        (mkParams defaultConfig species s.offset) = .fail := by
      unfold stallRemote mkParams
      simp [h]
    simp only [innerLoop, hfail]
    exact ih _ (by simpa using h)

/-- Helper: on every stuck state the stale-data exit test of line 113
evaluates to continue, because the stale page was full and below both the
cap and the declared total. -/
theorem outerExit_stuck (total : Nat) (h1 : 300 < total) (s : St Nat)
    (hs : stuckSt total s) : outerExit defaultConfig s = some false := by
  obtain ⟨ho, hrc, htr, hld, hlr⟩ := hs
  simp only [outerExit, hld, hlr, hrc, htr]
  rw [if_neg (by simp [List.isEmpty_eq_true, List.range'_eq_nil])]
  rw [if_neg (by simp [List.length_range', defaultConfig])]
  rw [if_neg (by norm_num [defaultConfig])]
  simp only [Option.some.injEq, decide_eq_false_iff_not, ge_iff_le]
  omega

/-- Helper: once trapped in the stuck family, the loop consumes any amount
of fuel without ever leaving it: every execution prefix ends in timeout. -/
theorem stuck_timeout (species : String) (total : Nat) (h1 : 300 < total) :
    ∀ (fuel : Nat) (s : St Nat), stuckSt total s →
      (outerLoopB defaultConfig species (stallRemote total) fuel s) =
        .timeout ((outerLoopB defaultConfig species (stallRemote total) fuel s).st) := by
  intro fuel
  induction fuel with
  | zero =>
    intro s hs
    rfl
  | succ f ih =>
    intro s hs
    obtain ⟨ho, hrc, htr, hld, hlr⟩ := hs
    obtain ⟨s', hs', ho', hrc', htr', hld', hlr'⟩ :=
      innerLoop_stall species total 3 s (by rw [ho]; omega)
    have hstuck : stuckSt total s' := ⟨ho'.trans ho, hrc'.trans hrc, htr'.trans htr,
      hld'.trans hld, hlr'.trans hlr⟩
    have hexit : outerExit defaultConfig s' = some false :=
      outerExit_stuck total h1 s' hstuck
    have hstep : outerLoopB defaultConfig species (stallRemote total) (f + 1) s =
        outerLoopB defaultConfig species (stallRemote total) f s' := by
      simp only [outerLoopB, show defaultConfig.retryCount = 3 from rfl, hs', hexit]
    rw [hstep]
    exact ih s' hstuck

/-- Helper: against a remote serving one full first page of its 1000
declared records and then failing every request, src/gbif.py's
download_species never returns for any fuel bound: the first outer
iteration accumulates the 300-record page and advances to offset 300,
after which every iteration exhausts its retries and the stale line-113
test sends it straight back; nothing is ever persisted. -/
theorem stallRun_timeout (species : String) (fuel : Nat) :
    (download_species defaultConfig species (stallRemote 1000) false fuel).isTimeout = true ∧
    (download_species defaultConfig species (stallRemote 1000) false fuel).written = none := by
  simp only [download_species, if_neg Bool.false_ne_true]
  cases fuel with
  | zero => exact ⟨rfl, rfl⟩
  | succ f =>
    have hinner : innerLoop defaultConfig species (stallRemote 1000) 3 (initSt Nat) =
        .broke
          { issued := [mkParams defaultConfig species 0]
            pageCount := 1
            offset := 300
            totalRecords := some 1000
            allResults := List.range' 0 300
            recordCount := 300
            lastData := some { count? := some 1000, results? := some (List.range' 0 300) }
            lastResults := some (List.range' 0 300) } := by
      simp [innerLoop, stallRemote, mkParams, initSt, defaultConfig]
    have hexit : outerExit defaultConfig
        { issued := [mkParams defaultConfig species 0]
          pageCount := 1
          offset := 300
          totalRecords := some 1000
          allResults := List.range' 0 300
          recordCount := 300
          lastData := some { count? := some 1000, results? := some (List.range' 0 300) }
          lastResults := some (List.range' 0 300) } = some false :=
      outerExit_stuck 1000 (by omega) _ ⟨rfl, rfl, rfl, rfl, rfl⟩
    have hstep : outerLoopB defaultConfig species (stallRemote 1000) (f + 1) (initSt Nat) =
        outerLoopB defaultConfig species (stallRemote 1000) f
          { issued := [mkParams defaultConfig species 0]
            pageCount := 1
            offset := 300
            totalRecords := some 1000
            allResults := List.range' 0 300
            recordCount := 300
            lastData := some { count? := some 1000, results? := some (List.range' 0 300) }
            lastResults := some (List.range' 0 300) } := by
      simp only [outerLoopB, show defaultConfig.retryCount = 3 from rfl, hinner, hexit]
    rw [hstep]
    rw [stuck_timeout species 1000 (by omega) f _
      ⟨rfl, rfl, rfl, rfl, rfl⟩]
    exact ⟨rfl, rfl⟩

/-- C3: the claim is false of the code and the code contradicts its own
line-110 message ("reached max retries, skipping current page").  With
records already accumulated (a full first page of 1000 declared records)
and retries exhausted on the second page forever, the pagination loop
never terminates: for every fuel bound the run is still inside the loop,
so the species never reaches any completion and the accumulated records
are never persisted.  (Line 113 re-evaluates the exit test on the stale
data/results of the last successful page, which satisfies no stop
condition, so the outer loop re-enters the retry loop at the same offset
with a fresh budget.) -/
theorem claim_C3_mid_stream_retry_exhaustion_loops (species : String) (fuel : Nat) :
    (download_species defaultConfig species (stallRemote 1000) false fuel).isTimeout = true ∧
    (download_species defaultConfig species (stallRemote 1000) false fuel).written = none :=
  stallRun_timeout species fuel

/-- Helper: the inner retry loop never drives the accumulated record count
below zero (it only ever adds page lengths). -/
theorem innerLoop_rc_nonneg (cfg : Config) (species : String) (remote : Remote α) :
    ∀ (n : Nat) (s : St α), 0 ≤ s.recordCount →
      0 ≤ (innerLoop cfg species remote n s).st.recordCount := by
  intro n
  induction n with
  | zero => intro s h; simpa [innerLoop, InnerOut.st] using h
  | succ k ih =>
    intro s h
    simp only [innerLoop]
    split
    · exact ih _ (by simpa using h)
    · simpa [InnerOut.st] using h
    · split
      · simpa [InnerOut.st] using h
      · split
        · simpa [InnerOut.st] using h
        · split
          · simp only [InnerOut.st]
            omega
          · simp only [InnerOut.st]
            omega

/-- Helper: every value the download body can return is non-negative:
either the 0 of the zero-record branch or the non-negative accumulated
count. -/
theorem outerLoopB_ret_nonneg (cfg : Config) (species : String) (remote : Remote α) :
    ∀ (fuel : Nat) (s : St α), 0 ≤ s.recordCount →
      ∀ (r : Int) (w : Option (List α)) (warned : Bool) (s' : St α),
        outerLoopB cfg species remote fuel s = .value r w warned s' → 0 ≤ r := by
  intro fuel
  induction fuel with
  | zero => intro s h r w warned s' heq; simp [outerLoopB] at heq
  | succ f ih =>
    intro s h r w warned s' heq
    have hin := innerLoop_rc_nonneg cfg species remote cfg.retryCount s h
    simp only [outerLoopB] at heq
    split at heq
    · exact absurd heq (by simp)
    · rename_i s1 hi
      rw [hi] at hin
      simp only [InnerOut.st] at hin
      split at heq
      · exact absurd heq (by simp)
      · unfold finishSave at heq
        split at heq
        · obtain ⟨rfl, -, -, -⟩ := BodyRes.value.inj heq
          exact le_refl 0
        · obtain ⟨rfl, -, -, -⟩ := BodyRes.value.inj heq
          exact hin
      · exact ih s1 hin r w warned s' heq
    · rename_i s1 hi
      rw [hi] at hin
      simp only [InnerOut.st] at hin
      split at heq
      · exact absurd heq (by simp)
      · unfold finishSave at heq
        split at heq
        · obtain ⟨rfl, -, -, -⟩ := BodyRes.value.inj heq
          exact le_refl 0
        · obtain ⟨rfl, -, -, -⟩ := BodyRes.value.inj heq
          exact hin
      · exact ih s1 hin r w warned s' heq

/-- C9 (amended): download_species of src/gbif.py never lets an exception
escape to its caller — for every remote behavior (transport failures,
malformed payloads, the NameError and TypeError paths of line 113) the
outcome is either a normal return or a still-running loop, and every
returned record count is non-negative.  The original claim's "always
returns" is false: see the counterexample, a remote behavior under which
the call never returns at all. -/
theorem claim_C9_no_exception_and_nonneg (α : Type) (cfg : Config) (species : String)
    (remote : Remote α) (fileExists : Bool) (fuel : Nat) :
    (∃ s, download_species cfg species remote fileExists fuel = .timeout s) ∨
    (∃ r w warned s, download_species cfg species remote fileExists fuel =
        .done r w warned s ∧ 0 ≤ r) := by
  unfold download_species
  by_cases hfe : fileExists = true
  · rw [if_pos hfe]
    right
    exact ⟨0, none, false, initSt α, rfl, le_refl 0⟩
  · rw [if_neg hfe]
    cases hb : outerLoopB cfg species remote fuel (initSt α) with
    | timeout s => exact Or.inl ⟨s, rfl⟩
    | raised s => exact Or.inr ⟨0, none, false, s, rfl, le_refl 0⟩
    | value r w warned s =>
      refine Or.inr ⟨r, w, warned, s, rfl, ?_⟩
      exact outerLoopB_ret_nonneg cfg species remote fuel (initSt α)
        (by simp [initSt]) r w warned s hb

/-- C9 counterexample: against a remote that serves one full page of its
1000 declared records and then fails permanently, download_species never
returns — every fuel bound leaves it still inside the pagination loop —
so the claim's "always returns a non-negative integer record count" fails
at this concrete remote behavior. -/
theorem claim_C9_counterexample : NeverReturns "Quercus robur" (stallRemote 1000) :=
  fun fuel => (stallRun_timeout "Quercus robur" fuel).1

/-- Helper: the prefix test is equivalent to an append decomposition. -/
theorem startsWithList_iff : ∀ (pat l : List Char),
    startsWithList pat l = true ↔ ∃ t, l = pat ++ t := by
  intro pat
  induction pat with
  | nil =>
    intro l
    simp [startsWithList]
  | cons p ps ih =>
    intro l
    cases l with
    | nil => simp [startsWithList]
    | cons x xs =>
      simp only [startsWithList, Bool.and_eq_true, decide_eq_true_eq, ih xs,
        List.cons_append, List.cons.injEq]
      constructor
      · rintro ⟨rfl, t, rfl⟩
        exact ⟨t, rfl, rfl⟩
      · rintro ⟨t, rfl, rfl⟩
        exact ⟨rfl, t, rfl⟩

/-- Helper: replacement on the empty list is empty at every fuel. -/
theorem replaceAllF_nil (pat rep : List Char) : ∀ f, replaceAllF pat rep f [] = [] := by
  intro f
  cases f <;> rfl

/-- Helper: single-character replacement is a character map. -/
theorem replaceAllF_single (a b : Char) :
    ∀ (f : Nat) (l : List Char), l.length ≤ f →
      replaceAllF [a] [b] f l = l.map (fun c => if c = a then b else c) := by
  intro f
  induction f with
  | zero =>
    intro l hl
    rw [List.length_eq_zero.1 (Nat.le_zero.1 hl)]
    rfl
  | succ k ih =>
    intro l hl
    cases l with
    | nil => rfl
    | cons c rest =>
      simp only [replaceAllF, List.map_cons]
      by_cases hca : a = c
      · rw [if_pos ⟨by simp [startsWithList, hca], by simp⟩]
        simp only [List.length_cons, List.length_nil, List.drop_succ_cons,
          List.drop_zero, List.singleton_append]
        rw [ih rest (by simpa using hl)]
        simp [← hca]
      · rw [if_neg (by simp [startsWithList, hca])]
        rw [ih rest (by simpa using hl)]
        rw [if_neg (fun hh => hca (Eq.symm hh))]

/-- Helper: replacement by the empty string only removes characters. -/
theorem mem_replaceAllF_sub (pat : List Char) (x : Char) :
    ∀ (f : Nat) (l : List Char), x ∈ replaceAllF pat [] f l → x ∈ l := by
  intro f
  induction f with
  | zero =>
    intro l h
    cases l with
    | nil => exact absurd h (List.not_mem_nil x)
    | cons c rest => exact h
  | succ k ih =>
    intro l h
    cases l with
    | nil => exact absurd h (List.not_mem_nil x)
    | cons c rest =>
      simp only [replaceAllF] at h
      split at h
      · simp only [List.nil_append] at h
        exact List.mem_of_mem_drop (ih _ h)
      · rcases List.mem_cons.1 h with h1 | h1
        · exact List.mem_cons.2 (Or.inl h1)
        · exact List.mem_cons.2 (Or.inr (ih _ h1))

/-- Helper: removing every occurrence of a non-self-overlapping pattern
from l ++ pat, when pat does not occur in l, removes exactly the appended
pat: no occurrence can straddle the boundary. -/
theorem replaceAllF_strip (pat : List Char) (hne : pat ≠ [])
    (hso : ∀ k, k < pat.length → 0 < k → pat.drop k ≠ pat.take (pat.length - k)) :
    ∀ (f : Nat) (l : List Char), (l ++ pat).length ≤ f → containsList pat l = false →
      replaceAllF pat [] f (l ++ pat) = l := by
  intro f
  induction f with
  | zero =>
    intro l hl hc
    exfalso
    simp only [List.length_append, Nat.le_zero] at hl
    exact hne (List.length_eq_zero.1 (by omega))
  | succ k ih =>
    intro l hl hc
    cases l with
    | nil =>
      simp only [List.nil_append]
      obtain ⟨p, ps, rfl⟩ := List.exists_cons_of_ne_nil hne
      simp only [replaceAllF]
      rw [if_pos ⟨(startsWithList_iff _ _).2 ⟨[], by simp⟩, hne⟩]
      rw [show ((p :: ps) : List Char).drop (p :: ps).length = [] from List.drop_length _]
      rw [replaceAllF_nil]
      rfl
    | cons c rest =>
      have hns : ¬(startsWithList pat (c :: (rest ++ pat)) = true) := by
        intro habs
        obtain ⟨t, ht⟩ := (startsWithList_iff _ _).1 habs
        rw [show c :: (rest ++ pat) = (c :: rest) ++ pat from rfl] at ht
        by_cases hmn : pat.length ≤ (c :: rest).length
        · have h2 := congrArg (List.take pat.length) ht
          rw [List.take_append_eq_append_take, List.take_left' rfl,
            Nat.sub_eq_zero_of_le hmn, List.take_zero, List.append_nil] at h2
          have hsw : startsWithList pat (c :: rest) = true := by
            refine (startsWithList_iff _ _).2 ⟨(c :: rest).drop pat.length, ?_⟩
            conv_lhs => rw [← List.take_append_drop pat.length (c :: rest)]
            rw [h2]
          have : containsList pat (c :: rest) = true := by
            simp [containsList, hsw]
          rw [hc] at this
          exact Bool.false_ne_true this
        · push_neg at hmn
          have h2 := congrArg (List.take pat.length) ht
          rw [List.take_append_eq_append_take, List.take_left' rfl,
            List.take_of_length_le (Nat.le_of_lt hmn)] at h2
          have h3 := congrArg (List.drop (c :: rest).length) h2.symm
          rw [List.drop_left] at h3
          exact hso (c :: rest).length hmn (by simp) h3
      rw [show ((c :: rest) : List Char) ++ pat = c :: (rest ++ pat) from rfl]
      simp only [replaceAllF]
      rw [if_neg (fun habs => hns habs.1)]
      have hc2 : containsList pat rest = false := by
        have hcc := hc
        simp only [containsList, Bool.or_eq_false_iff] at hcc
        exact hcc.2
      rw [ih rest (by simp only [List.length_append, List.length_cons] at hl ⊢; omega) hc2]

/-- Helper: mapping spaces to underscores and back is the identity on a
name containing no underscore. -/
theorem map_space_underscore_cancel :
    ∀ (l : List Char), '_' ∉ l →
      (l.map (fun c => if c = ' ' then '_' else c)).map
        (fun c => if c = '_' then ' ' else c) = l := by
  intro l
  induction l with
  | nil => intro h; rfl
  | cons c rest ih =>
    intro h
    simp only [List.map_cons, List.cons.injEq]
    refine ⟨?_, ih (fun hm => h (List.mem_cons.2 (Or.inr hm)))⟩
    have hcu : c ≠ '_' := fun hc => h (List.mem_cons.2 (Or.inl hc.symm))
    by_cases hcs : c = ' '
    · simp [hcs]
    · simp [hcs, hcu]

/-- Helper: mapping underscores to spaces yields no underscore. -/
theorem map_underscore_free (l : List Char) :
    '_' ∉ l.map (fun c => if c = '_' then ' ' else c) := by
  intro h
  obtain ⟨c, -, hceq⟩ := List.mem_map.1 h
  by_cases hc : c = '_'
  · rw [if_pos hc] at hceq
    exact absurd hceq (by decide)
  · rw [if_neg hc] at hceq
    exact hc hceq

/-- C10 (amended): the export step of src/json_trans.py (line 51) recovers
the species name from the artifact filename built by src/gbif.py
(line 26) exactly for species names containing neither an underscore nor
the substring '.json' (Python str.replace removes every occurrence of
'.json', not just the extension — see the counterexample); and for every
species name containing an underscore the recovered name differs from the
original. -/
theorem claim_C10_filename_roundtrip :
    (∀ name : String, '_' ∉ name.data → containsList jpat name.data = false →
        recoverSpecies (speciesFilename name) = name) ∧
    (∀ name : String, '_' ∈ name.data →
        recoverSpecies (speciesFilename name) ≠ name) := by
  have hso : ∀ k, k < jpat.length → 0 < k → jpat.drop k ≠ jpat.take (jpat.length - k) := by
    decide
  have hjne : jpat ≠ [] := by decide
  have hrec : ∀ s : String, (recoverSpecies s).data =
      replaceAll jpat [] (replaceAll ['_'] [' '] s.data) := fun s => rfl
  have hfile : ∀ name : String, (speciesFilename name).data =
      replaceAll [' '] ['_'] name.data ++ jpat := fun name => rfl
  have hsingle : ∀ (a b : Char) (l : List Char),
      replaceAll [a] [b] l = l.map (fun c => if c = a then b else c) := by
    intro a b l
    exact replaceAllF_single a b l.length l (Nat.le_refl _)
  constructor
  · intro name h1 h2
    have hdata : (recoverSpecies (speciesFilename name)).data = name.data := by
      rw [hrec, hfile]
      have e1 : replaceAll ['_'] [' ']
          (replaceAll [' '] ['_'] name.data ++ jpat) = name.data ++ jpat := by
        rw [hsingle, hsingle, List.map_append, map_space_underscore_cancel name.data h1]
        rfl
      rw [e1]
      show replaceAllF jpat [] (name.data ++ jpat).length (name.data ++ jpat) = name.data
      exact replaceAllF_strip jpat hjne hso _ _ (Nat.le_refl _) h2
    calc recoverSpecies (speciesFilename name)
        = ⟨(recoverSpecies (speciesFilename name)).data⟩ := rfl
      _ = ⟨name.data⟩ := by rw [hdata]
      _ = name := rfl
  · intro name h heq
    have h2 : '_' ∈ (recoverSpecies (speciesFilename name)).data := by
      rw [heq]
      exact h
    rw [hrec] at h2
    have h3 : '_' ∈ replaceAll ['_'] [' '] (speciesFilename name).data :=
      mem_replaceAllF_sub jpat '_' _ _ h2
    rw [hsingle] at h3
    exact map_underscore_free _ h3

theorem claim_C10_witness :
    ('_' ∉ "Abies alba".data) ∧ containsList jpat "Abies alba".data = false ∧
    recoverSpecies (speciesFilename "Abies alba") = "Abies alba" ∧
    ('_' ∈ "Abies_alba2".data) ∧
    recoverSpecies (speciesFilename "Abies_alba2") ≠ "Abies_alba2" :=
  ⟨by decide, by decide,
   claim_C10_filename_roundtrip.1 "Abies alba" (by decide) (by decide),
   by decide,
   claim_C10_filename_roundtrip.2 "Abies_alba2" (by decide)⟩

/-- C10 counterexample: the species name "a.json b" contains no underscore
yet does not round-trip: its artifact name is "a.json_b.json" and the
export step recovers "a b", because str.replace('.json', mk-empty) deletes
the '.json' inside the name as well as the extension. -/
theorem claim_C10_counterexample :
    ('_' ∉ "a.json b".data) ∧
    speciesFilename "a.json b" = "a.json_b.json" ∧
    recoverSpecies (speciesFilename "a.json b") = "a b" ∧
    ("a b" : String) ≠ "a.json b" := by
  refine ⟨by decide, by decide, by decide, by decide⟩

end Gbifdown
